import Mathlib

/-
Verification of the genetic-algorithm activity scheduler.

The development shallowly embeds the two Python modules of the repository:

* schedule.py — the domain model (Activity, Room, ScheduleItem, Schedule)
  and the fitness evaluator Schedule.calculate_fitness;
* main.py — the genetic operators (select_parents, crossover, mutate) and
  the adaptive-mutation / convergence logic of run_genetic_algorithm.

Python floats are modelled as exact rationals (the weights 0.5, 0.4, 0.3,
0.25, 0.2, 0.1 become 1/2, 2/5, 3/10, 1/4, 1/5, 1/10); dictionaries become
association lists with Option-valued lookup, and a raised exception
(KeyError, ValueError, StopIteration, ZeroDivisionError, IndexError) is
modelled as the Option value none.  Randomness is made explicit: each
random draw of the source becomes a parameter of the embedded function.
-/

attribute [local semireducible] Rat.add Rat.mul Rat.sub Rat.inv

namespace GA

/-- Activity record, from the dataclass Activity in schedule.py. -/
structure Activity where
  name : String
  enrollment : Nat
  preferred_facilitators : List String
  other_facilitators : List String
  deriving DecidableEq

/-- Room record, from the dataclass Room in schedule.py. -/
structure Room where
  name : String
  capacity : Nat
  deriving DecidableEq

/-- One scheduled assignment, from the dataclass ScheduleItem in schedule.py. -/
structure ScheduleItem where
  activity : String
  room : String
  time : String
  facilitator : String
  deriving DecidableEq

/-- A candidate schedule: the item list together with the mutable
fitness_score cache, which the Python constructor initialises to None. -/
structure Schedule where
  items : List ScheduleItem
  fitness_score : Option ℚ
  deriving DecidableEq

/-- The activities catalog, a Python dict name to Activity, as an association list. -/
abbrev ActivityCatalog := List (String × Activity)

/-- The rooms catalog, a Python dict name to Room, as an association list. -/
abbrev RoomCatalog := List (String × Room)

/-- The canonical ordered time-slot list, schedule.py line 117. -/
def timeSlots : List String := ["10 AM", "11 AM", "12 PM", "1 PM", "2 PM", "3 PM"]

/-- Room-sizing contribution, schedule.py lines 83-91: capacity below the
enrollment gives -0.5, capacity above six times the enrollment gives -0.4,
capacity above three times the enrollment gives -0.2, otherwise +0.3,
first match wins in that order. -/
def roomSizeScore (room : Room) (activity : Activity) : ℚ :=
  if room.capacity < activity.enrollment then -1/2
  else if room.capacity > 6 * activity.enrollment then -2/5
  else if room.capacity > 3 * activity.enrollment then -1/5
  else 3/10

/-- Facilitator suitability contribution, schedule.py lines 94-99:
+0.5 for a preferred facilitator, +0.2 for an other facilitator,
otherwise -0.1. -/
def facilitatorScore (activity : Activity) (facilitator : String) : ℚ :=
  if facilitator ∈ activity.preferred_facilitators then 1/2
  else if facilitator ∈ activity.other_facilitators then 1/5
  else -1/10

/-- The dictionary key facilitator_time, schedule.py lines 58 and 102. -/
def timeKey (item : ScheduleItem) : String := item.facilitator ++ "_" ++ item.time

/-- Number of items of the whole schedule sharing the facilitator-underscore-time
key with the given item; this is facilitator_time_counts of schedule.py
lines 58-63 after the first pass has completed. -/
def facilitatorTimeCount (all : List ScheduleItem) (item : ScheduleItem) : Nat :=
  all.countP (fun j => timeKey j == timeKey item)

/-- Number of items assigned to the given facilitator across the whole
schedule; this is facilitator_counts of schedule.py lines 53-56. -/
def facilitatorCount (all : List ScheduleItem) (facilitator : String) : Nat :=
  all.countP (fun j => j.facilitator == facilitator)

/-- Facilitator concurrency contribution, schedule.py lines 104-107:
+0.2 when the facilitator has exactly one item at this time slot,
-0.2 when more than one. -/
def concurrencyScore (n : Nat) : ℚ :=
  if n = 1 then 1/5
  else if n > 1 then -1/5
  else 0

/-- Facilitator total-load contribution, schedule.py lines 110-114:
-0.5 for a total count above 4, else -0.4 for a count below 3 unless the
facilitator is Tyler. -/
def loadScore (n : Nat) (facilitator : String) : ℚ :=
  if n > 4 then -1/2
  else if n < 3 ∧ facilitator ≠ "Tyler" then -2/5
  else 0

/-- The pair used by the room-time collision check, schedule.py line 73. -/
def timeRoomPair (item : ScheduleItem) : String × String := (item.time, item.room)

/-- Set insertion for the time_room_pairs set of schedule.py line 76:
adding an element already present leaves the set unchanged. -/
def insertPair (seen : List (String × String)) (p : String × String) : List (String × String) :=
  if p ∈ seen then seen else p :: seen

/-- Room-time collision contribution for one item, schedule.py lines 73-75:
-0.5 when the item's (time, room) pair was already seen. -/
def collisionScore (seen : List (String × String)) (item : ScheduleItem) : ℚ :=
  if timeRoomPair item ∈ seen then -1/2 else 0

/-- All per-item contributions of schedule.py lines 78-114 except the
collision check: room sizing, facilitator suitability, concurrency and
load.  The two catalog lookups model the Python dict subscripts of lines
79-80; none models the KeyError raised on a missing key. -/
def scoreItemRest (activities : ActivityCatalog) (rooms : RoomCatalog)
    (all : List ScheduleItem) (item : ScheduleItem) : Option ℚ := do
  let activity ← activities.lookup item.activity
  let room ← rooms.lookup item.room
  pure (roomSizeScore room activity
    + facilitatorScore activity item.facilitator
    + concurrencyScore (facilitatorTimeCount all item)
    + loadScore (facilitatorCount all item.facilitator) item.facilitator)

/-- The per-item scoring loop of schedule.py lines 71-114, threading the
time_room_pairs set: each step adds the collision contribution computed
against the pairs seen so far, adds the remaining per-item contributions,
and inserts the item's pair into the set regardless of duplication. -/
def scoreItems (activities : ActivityCatalog) (rooms : RoomCatalog)
    (all : List ScheduleItem) :
    List ScheduleItem → List (String × String) → Option ℚ
  | [], _ => some 0
  | item :: rest, seen => do
      let s ← scoreItemRest activities rooms all item
      let r ← scoreItems activities rooms all rest (insertPair seen (timeRoomPair item))
      pure (collisionScore seen item + s + r)

/-- Number of loop steps of schedule.py lines 71-76 whose (time, room)
pair is already in the set when the item is processed, starting from the
given set of already-seen pairs: exactly the number of -0.5 collision
penalties the per-item pass charges. -/
def dupCount : List (String × String) → List (String × String) → Nat
  | [], _ => 0
  | p :: rest, seen => (if p ∈ seen then 1 else 0) + dupCount rest (insertPair seen p)

/-- Sum of the non-collision per-item contributions of schedule.py lines
78-114 over a list of items; the collision-free remainder of the
per-item pass. -/
def restTotal (activities : ActivityCatalog) (rooms : RoomCatalog)
    (all : List ScheduleItem) : List ScheduleItem → Option ℚ
  | [] => some 0
  | item :: rest => do
      let s ← scoreItemRest activities rooms all item
      let r ← restTotal activities rooms all rest
      pure (s + r)

/-- Times of the SLA100A and SLA100B items in schedule order,
schedule.py lines 65-66. -/
def sla101Times (items : List ScheduleItem) : List String :=
  (items.filter (fun i => i.activity == "SLA100A" || i.activity == "SLA100B")).map
    (fun i => i.time)

/-- Times of the SLA191A and SLA191B items in schedule order,
schedule.py lines 67-68. -/
def sla191Times (items : List ScheduleItem) : List String :=
  (items.filter (fun i => i.activity == "SLA191A" || i.activity == "SLA191B")).map
    (fun i => i.time)

/-- Position of a time label in the canonical time-slot list; none models
the ValueError raised by list.index on a missing label. -/
def slotIndex (t : String) : Option Nat := timeSlots.indexOf? t

/-- Absolute index distance of two time labels in the canonical time-slot
list, schedule.py lines 123, 130 and 141. -/
def slotDist (t1 t2 : String) : Option Nat := do
  let a ← slotIndex t1
  let b ← slotIndex t2
  pure ((a : Int) - b).natAbs

/-- Section-timing adjustment for one group, schedule.py lines 120-131:
only a group with exactly two collected times contributes, -0.5 when the
two times are equal, +0.5 when their slot distance exceeds 4. -/
def groupScore (times : List String) : Option ℚ :=
  match times with
  | [t1, t2] =>
      if t1 = t2 then some (-1/2)
      else do
        let d ← slotDist t1 t2
        pure (if d > 4 then (1/2 : ℚ) else 0)
  | _ => some 0

/-- Whether a room name contains the substring given as the second string;
Python substring membership implemented structurally over character lists. -/
def charsHaveStart (s pat : List Char) : Bool :=
  match s, pat with
  | _, [] => true
  | [], _ :: _ => false
  | c :: cs, p :: ps => c == p && charsHaveStart cs ps

/-- Substring occurrence test over character lists. -/
def charsHaveSub (pat : List Char) : List Char → Bool
  | [] => pat.isEmpty
  | c :: cs => charsHaveStart (c :: cs) pat || charsHaveSub pat cs

/-- Python substring membership pat in s. -/
def strHasSub (s pat : String) : Bool := charsHaveSub pat.toList s.toList

/-- Whether a room name mentions the Roman or Beach building,
schedule.py lines 147-148. -/
def isRomanBeach (room : String) : Bool :=
  strHasSub room "Roman" || strHasSub room "Beach"

/-- First item of the SLA100 group with the given time, schedule.py line
144; none models the StopIteration raised when no item matches. -/
def find101 (items : List ScheduleItem) (t : String) : Option ScheduleItem :=
  items.find? (fun i => (i.activity == "SLA100A" || i.activity == "SLA100B") && i.time == t)

/-- First item of the SLA191 group with the given time, schedule.py line 145. -/
def find191 (items : List ScheduleItem) (t : String) : Option ScheduleItem :=
  items.find? (fun i => (i.activity == "SLA191A" || i.activity == "SLA191B") && i.time == t)

/-- Cross-group contribution of one (sla101_time, sla191_time) pair,
schedule.py lines 141-155: slot distance 1 gives +0.5 plus an extra -0.4
when exactly one of the two matching items sits in a Roman or Beach room,
distance 2 gives +0.25, distance 0 gives -0.25, anything else 0. -/
def crossPairScore (items : List ScheduleItem) (t101 t191 : String) : Option ℚ := do
  let d ← slotDist t101 t191
  if d = 1 then do
    let i101 ← find101 items t101
    let i191 ← find191 items t191
    pure ((1/2 : ℚ) + (if isRomanBeach i101.room != isRomanBeach i191.room then -2/5 else 0))
  else if d = 2 then pure (1/4)
  else if d = 0 then pure (-1/4)
  else pure 0

/-- Sum of a list of possibly-failing contributions; none as soon as one
member is none. -/
def sumOpt : List (Option ℚ) → Option ℚ
  | [] => some 0
  | o :: rest => do
      let x ← o
      let r ← sumOpt rest
      pure (x + r)

/-- The doubly nested cross-group loop of schedule.py lines 139-155. -/
def crossScore (items : List ScheduleItem) : Option ℚ :=
  sumOpt ((sla101Times items).map (fun t101 =>
    sumOpt ((sla191Times items).map (fun t191 => crossPairScore items t101 t191))))

/-- The full fitness value of Schedule.calculate_fitness, schedule.py
lines 42-158: the per-item pass plus the two group-timing adjustments plus
the cross-group adjustments; none models any raised exception. -/
def fitnessValue (activities : ActivityCatalog) (rooms : RoomCatalog)
    (items : List ScheduleItem) : Option ℚ := do
  let perItem ← scoreItems activities rooms items items []
  let g101 ← groupScore (sla101Times items)
  let g191 ← groupScore (sla191Times items)
  let cross ← crossScore items
  pure (perItem + g101 + g191 + cross)

/-- Schedule.calculate_fitness, schedule.py lines 42-158: computes the
score from the item list and the catalogs, stores it in the
fitness_score cache and returns it; the returned schedule is the
post-call state of the Python object. -/
def Schedule.calculate_fitness (self : Schedule) (activities : ActivityCatalog)
    (rooms : RoomCatalog) : Option (ℚ × Schedule) :=
  match fitnessValue activities rooms self.items with
  | none => none
  | some q => some (q, { self with fitness_score := some q })

/-- Sort key used by select_parents, main.py line 50: the cached
fitness_score of a schedule.  select_parents is only applied once every
schedule is scored, so the default value 0 is never consulted on the
domain covered by the guard below. -/
def fitKey (s : Schedule) : ℚ := s.fitness_score.getD 0

/-- The descending comparison used by the sort of main.py line 50:
an earlier element stays before a later one exactly when its key is at
least as large. -/
def fitDesc (a b : Schedule) : Prop := fitKey b ≤ fitKey a

instance : DecidableRel fitDesc :=
  fun a b => inferInstanceAs (Decidable (fitKey b ≤ fitKey a))

instance : IsTotal Schedule fitDesc :=
  ⟨fun a b => le_total (fitKey b) (fitKey a)⟩

instance : IsTrans Schedule fitDesc :=
  ⟨fun _ _ _ h1 h2 => le_trans h2 h1⟩

/-- The stable descending sort of main.py line 50, Python sorted with
key fitness_score and reverse True.  Python sorted is a stable sort, and
all stable sorts under the same comparison compute the same output list,
so the sort is embedded as a stable insertion sort. -/
def sortByFitnessDesc (generation : List Schedule) : List Schedule :=
  List.insertionSort fitDesc generation

/-- select_parents, main.py lines 48-51: sorts the generation by
fitness_score in descending order and returns the first two entries.
none models the exception Python raises: an IndexError when the sorted
list has fewer than two entries, or the TypeError of comparing the None
score of an unscored schedule. -/
def select_parents (generation : List Schedule) : Option (Schedule × Schedule) :=
  if generation.all (fun s => s.fitness_score.isSome) then
    match sortByFitnessDesc generation with
    | a :: b :: _ => some (a, b)
    | _ => none
  else none

/-- crossover, main.py lines 53-57.  The argument crossover_point models
the draw random.randint(0, len(first.items)) of line 55; the child is
first.items up to the cut concatenated with second.items from the cut,
with an unset fitness cache. -/
def crossover (first second : Schedule) (crossover_point : Nat) : Schedule :=
  { items := first.items.take crossover_point ++ second.items.drop crossover_point,
    fitness_score := none }

/-- The three possible values of mutation_type, main.py line 67. -/
inductive MutationType
  | room
  | time
  | facilitator
  deriving DecidableEq

/-- The random draws consumed for one item of the mutation loop,
main.py lines 66-88: u is the value of random.random() compared with the
rate; mtype is random.choice of the three mutation types; newRoom,
newTime and newFac are the random.choice values from the room, time and
facilitator catalogs, of which only the one selected by mtype is used. -/
structure Draw where
  u : ℚ
  mtype : MutationType
  newRoom : String
  newTime : String
  newFac : String

/-- The body of the mutation loop for one item, main.py lines 66-90:
when u is below the rate, exactly the field selected by mtype is
replaced by the drawn fresh value and the other three fields are copied;
otherwise the item is kept unchanged. -/
def mutateItem (rate : ℚ) (d : Draw) (item : ScheduleItem) : ScheduleItem :=
  if d.u < rate then
    match d.mtype with
    | MutationType.room =>
        { activity := item.activity, room := d.newRoom,
          time := item.time, facilitator := item.facilitator }
    | MutationType.time =>
        { activity := item.activity, room := item.room,
          time := d.newTime, facilitator := item.facilitator }
    | MutationType.facilitator =>
        { activity := item.activity, room := item.room,
          time := item.time, facilitator := d.newFac }
  else item

/-- The mutation loop of main.py lines 64-90, consuming one draw per
item from the stream of draws starting at index k. -/
def mutateItems (rate : ℚ) (draws : Nat → Draw) : Nat → List ScheduleItem → List ScheduleItem
  | _, [] => []
  | k, item :: rest => mutateItem rate (draws k) item :: mutateItems rate draws (k + 1) rest

/-- mutate, main.py lines 63-91: applies the per-item mutation loop and
wraps the result in a new Schedule with an unset fitness cache.  The
room, time and facilitator catalogs of the Python signature only feed
the random choices, which the draw stream models. -/
def mutate (schedule : Schedule) (rate : ℚ) (draws : Nat → Draw) : Schedule :=
  { items := mutateItems rate draws 0 schedule.items, fitness_score := none }

/-- The adaptive-control state of run_genetic_algorithm, main.py lines
155-156: the running maximum best_fitness_achieved, initialised to
negative infinity (the bottom element), and the current mutation rate. -/
structure GAState where
  best_fitness_achieved : WithBot ℚ
  current_mutation_rate : ℚ
  deriving DecidableEq

/-- The mutation-rate adaptation step of main.py lines 184-188: when this
generation's best fitness strictly exceeds the running maximum, the
maximum is updated and the mutation rate is halved; otherwise the state
is unchanged. -/
def adaptMutationRate (state : GAState) (current_best_fitness : ℚ) : GAState :=
  if state.best_fitness_achieved < (current_best_fitness : WithBot ℚ) then
    { best_fitness_achieved := (current_best_fitness : WithBot ℚ),
      current_mutation_rate := state.current_mutation_rate / 2 }
  else state

/-- The adaptation step iterated over the best fitness of each successive
generation of the driver loop. -/
def runAdaptation (state : GAState) (bests : List ℚ) : GAState :=
  bests.foldl adaptMutationRate state

/-- The convergence computation of main.py line 193, executed once the
generation index reaches 100: the relative improvement between the last
entry and the entry 100 positions from the end of avg_fitness_history.
Negative Python indices are read off the reversed list; none models the
ZeroDivisionError raised when the old entry is exactly 0, and the
IndexError raised on a history shorter than 100. -/
def convergenceImprovement (avg_fitness_history : List ℚ) : Option ℚ := do
  let last ← avg_fitness_history.reverse.get? 0
  let old ← avg_fitness_history.reverse.get? 99
  if old = 0 then none
  else pure ((last - old) / |old|)

/-- C1: for every schedule item scored by Schedule.calculate_fitness,
exactly one of the four room-sizing contributions -0.5, -0.4, -0.2, +0.3
is added, selected first-match-wins in the order: capacity below the
enrollment gives -0.5; else capacity above six times the enrollment gives
-0.4; else capacity above three times the enrollment gives -0.2; else
+0.3.  The four values are pairwise distinct and the characterisations
below are mutually exclusive and exhaustive, so never more than one fires
for the same item; the last conjunct shows the per-item score of the
evaluator contains this contribution exactly once. -/
theorem room_sizing_exclusive (room : Room) (activity : Activity) :
    (roomSizeScore room activity = -1/2 ∨ roomSizeScore room activity = -2/5 ∨
      roomSizeScore room activity = -1/5 ∨ roomSizeScore room activity = 3/10) ∧
    (roomSizeScore room activity = -1/2 ↔ room.capacity < activity.enrollment) ∧
    (roomSizeScore room activity = -2/5 ↔
      (¬ room.capacity < activity.enrollment ∧ room.capacity > 6 * activity.enrollment)) ∧
    (roomSizeScore room activity = -1/5 ↔
      (¬ room.capacity < activity.enrollment ∧ ¬ room.capacity > 6 * activity.enrollment ∧
        room.capacity > 3 * activity.enrollment)) ∧
    (roomSizeScore room activity = 3/10 ↔
      (¬ room.capacity < activity.enrollment ∧ ¬ room.capacity > 6 * activity.enrollment ∧
        ¬ room.capacity > 3 * activity.enrollment)) ∧
    (∀ (activities : ActivityCatalog) (rooms : RoomCatalog) (all : List ScheduleItem)
        (item : ScheduleItem) (q : ℚ) (a : Activity) (r : Room),
      scoreItemRest activities rooms all item = some q →
      activities.lookup item.activity = some a →
      rooms.lookup item.room = some r →
      q = roomSizeScore r a + facilitatorScore a item.facilitator
        + concurrencyScore (facilitatorTimeCount all item)
        + loadScore (facilitatorCount all item.facilitator) item.facilitator) := by
  refine ⟨?_, ?_, ?_, ?_, ?_, ?_⟩
  · unfold roomSizeScore
    split_ifs <;> simp
  · unfold roomSizeScore
    split_ifs <;> simp_all <;> try norm_num
    all_goals omega
  · unfold roomSizeScore
    split_ifs <;> simp_all <;> try norm_num
    all_goals omega
  · unfold roomSizeScore
    split_ifs <;> simp_all <;> try norm_num
    all_goals omega
  · unfold roomSizeScore
    split_ifs <;> simp_all <;> try norm_num
    all_goals omega
  · intro activities rooms all item q a r hq ha hr
    unfold scoreItemRest at hq
    rw [ha, hr] at hq
    simp at hq
    exact hq.symm

/-- Witness for C1 at a concrete undersized assignment: Slater 003 with
capacity 45 charged against an enrollment of 50 scores -0.5. -/
theorem room_sizing_exclusive_witness :
    roomSizeScore ⟨"Slater 003", 45⟩ ⟨"SLA100A", 50, ["Glen"], ["Numen"]⟩ = -1/2 :=
  (room_sizing_exclusive ⟨"Slater 003", 45⟩ ⟨"SLA100A", 50, ["Glen"], ["Numen"]⟩).2.1.mpr
    (by decide)

/-- C4: for every pair of parent schedules with item lists of equal
length n and every cut point in the inclusive range 0 to n, crossover
produces a child whose item list is the first parent's items before the
cut followed by the second parent's items from the cut on, and the child
list has length exactly n. -/
theorem crossover_items_length (first second : Schedule) (n crossover_point : Nat)
    (hA : first.items.length = n) (hB : second.items.length = n)
    (hc : crossover_point ≤ n) :
    (crossover first second crossover_point).items =
      first.items.take crossover_point ++ second.items.drop crossover_point ∧
    (crossover first second crossover_point).items.length = n := by
  refine ⟨rfl, ?_⟩
  simp [crossover, hA, hB]
  omega

/-- Witness for C4: cutting two concrete two-item parents at point 1. -/
theorem crossover_items_length_witness :
    (crossover ⟨[⟨"a", "r", "t", "f"⟩, ⟨"b", "r", "t", "f"⟩], none⟩
        ⟨[⟨"c", "r", "t", "f"⟩, ⟨"d", "r", "t", "f"⟩], none⟩ 1).items =
      [ScheduleItem.mk "a" "r" "t" "f", ScheduleItem.mk "d" "r" "t" "f"] ∧
    (crossover ⟨[⟨"a", "r", "t", "f"⟩, ⟨"b", "r", "t", "f"⟩], none⟩
        ⟨[⟨"c", "r", "t", "f"⟩, ⟨"d", "r", "t", "f"⟩], none⟩ 1).items.length = 2 :=
  crossover_items_length _ _ 2 1 rfl rfl (by omega)

/-- Bound used by C6: folding the adaptation step over any list of
per-generation best fitness values never increases the mutation rate and
keeps it nonnegative. -/
theorem runAdaptation_rate_bounds (bests : List ℚ) :
    ∀ state : GAState, 0 ≤ state.current_mutation_rate →
      (runAdaptation state bests).current_mutation_rate ≤ state.current_mutation_rate ∧
      0 ≤ (runAdaptation state bests).current_mutation_rate := by
  induction bests with
  | nil => exact fun state h => ⟨le_refl _, h⟩
  | cons b rest ih =>
      intro state h
      have hstep : (adaptMutationRate state b).current_mutation_rate
            ≤ state.current_mutation_rate ∧
          0 ≤ (adaptMutationRate state b).current_mutation_rate := by
        unfold adaptMutationRate
        split
        · simp only []
          constructor <;> [linarith; linarith]
        · exact ⟨le_refl _, h⟩
      have hrec := ih (adaptMutationRate state b) hstep.2
      have hfold : runAdaptation state (b :: rest) = runAdaptation (adaptMutationRate state b) rest := rfl
      rw [hfold]
      exact ⟨le_trans hrec.1 hstep.1, hrec.2⟩

/-- C6: across the generation loop the mutation rate is monotonically
non-increasing: each adaptation step leaves the rate equal to the old
rate or to half of it, halving and updating the running maximum exactly
when the generation best strictly exceeds best_fitness_achieved
(initialised to the bottom element, negative infinity), and for a
nonnegative rate the step and any iterated run never increase it. -/
theorem mutation_rate_monotone (state : GAState) (current_best_fitness : ℚ) (bests : List ℚ) :
    ((adaptMutationRate state current_best_fitness).current_mutation_rate
        = state.current_mutation_rate ∨
      (adaptMutationRate state current_best_fitness).current_mutation_rate
        = state.current_mutation_rate / 2) ∧
    (state.best_fitness_achieved < (current_best_fitness : WithBot ℚ) →
      adaptMutationRate state current_best_fitness =
        { best_fitness_achieved := (current_best_fitness : WithBot ℚ),
          current_mutation_rate := state.current_mutation_rate / 2 }) ∧
    (¬ state.best_fitness_achieved < (current_best_fitness : WithBot ℚ) →
      adaptMutationRate state current_best_fitness = state) ∧
    (0 ≤ state.current_mutation_rate →
      (adaptMutationRate state current_best_fitness).current_mutation_rate
        ≤ state.current_mutation_rate ∧
      (runAdaptation state bests).current_mutation_rate ≤ state.current_mutation_rate) := by
  refine ⟨?_, ?_, ?_, ?_⟩
  · unfold adaptMutationRate
    split
    · right; rfl
    · left; rfl
  · intro h
    unfold adaptMutationRate
    rw [if_pos h]
  · intro h
    unfold adaptMutationRate
    rw [if_neg h]
  · intro h
    refine ⟨?_, (runAdaptation_rate_bounds bests state h).1⟩
    unfold adaptMutationRate
    split
    · simp only []
      linarith
    · exact le_refl _

/-- Witness for C6: from the initial state with running maximum bottom
and rate 1, a generation best of 0 halves the rate and installs the new
maximum, and a one-generation run does not increase the rate. -/
theorem mutation_rate_monotone_witness :
    adaptMutationRate ⟨⊥, 1⟩ 0 =
      { best_fitness_achieved := ((0 : ℚ) : WithBot ℚ), current_mutation_rate := 1 / 2 } ∧
    (runAdaptation ⟨⊥, 1⟩ [0]).current_mutation_rate ≤ 1 :=
  ⟨(mutation_rate_monotone ⟨⊥, 1⟩ 0 [0]).2.1 (by decide),
    ((mutation_rate_monotone ⟨⊥, 1⟩ 0 [0]).2.2.2 (by norm_num)).2⟩

/-- C7: the convergence computation of the driver performs the division
by the absolute value of the hundredth-from-last average with no explicit
guard: at a history whose entry 100 positions from the end is exactly 0
the division-by-zero fault occurs (modelled as none), while an all-ones
history of the same length evaluates normally. -/
theorem convergence_division_unguarded :
    convergenceImprovement ((1 : ℚ) :: 0 :: List.replicate 99 1) = none ∧
    convergenceImprovement (List.replicate 101 (1 : ℚ)) = some 0 := by
  constructor
  · decide
  · decide

/-- Helper for C5: the mutation loop with rate 0 keeps every item,
because every value of random.random() is nonnegative. -/
theorem mutateItems_rate_zero (draws : Nat → Draw) (h : ∀ k, 0 ≤ (draws k).u) :
    ∀ (l : List ScheduleItem) (k : Nat), mutateItems 0 draws k l = l := by
  intro l
  induction l with
  | nil => intro k; rfl
  | cons item rest ih =>
      intro k
      have hitem : mutateItem 0 (draws k) item = item := by
        unfold mutateItem
        rw [if_neg (not_lt.mpr (h k))]
      show mutateItem 0 (draws k) item :: mutateItems 0 draws (k + 1) rest = item :: rest
      rw [hitem, ih (k + 1)]

/-- Helper for C5: position j of the mutated list is the mutated image of
position j of the input, under draw k + j of the stream. -/
theorem mutateItems_get (rate : ℚ) (draws : Nat → Draw) :
    ∀ (l : List ScheduleItem) (k j : Nat),
      (mutateItems rate draws k l).get? j
        = (l.get? j).map (fun i => mutateItem rate (draws (k + j)) i) := by
  intro l
  induction l with
  | nil => intro k j; simp [mutateItems]
  | cons item rest ih =>
      intro k j
      cases j with
      | zero => simp [mutateItems]
      | succ j2 =>
          show (mutateItems rate draws (k + 1) rest).get? j2
            = (rest.get? j2).map (fun i => mutateItem rate (draws (k + (j2 + 1))) i)
          rw [ih (k + 1) j2, show k + (j2 + 1) = (k + 1) + j2 by omega]

/-- C5: for every input schedule and every stream of random draws, mutate
with rate 0 returns a schedule whose items equal the input items position
by position, and mutate with rate 1 replaces, for every item, exactly the
one field among room, time and facilitator selected by the draw with the
drawn fresh value, leaving the other two fields and the activity
unchanged — never the activity, never two fields at once. -/
theorem mutate_rate_extremes (schedule : Schedule) (draws : Nat → Draw) :
    ((∀ k, 0 ≤ (draws k).u) → (mutate schedule 0 draws).items = schedule.items) ∧
    ((∀ k, (draws k).u < 1) →
      ∀ (j : Nat) (inp : ScheduleItem), schedule.items.get? j = some inp →
        ∃ out : ScheduleItem,
          (mutate schedule 1 draws).items.get? j = some out ∧
          out.activity = inp.activity ∧
          ((out = { inp with room := (draws j).newRoom } ∧ out.time = inp.time ∧
              out.facilitator = inp.facilitator) ∨
            (out = { inp with time := (draws j).newTime } ∧ out.room = inp.room ∧
              out.facilitator = inp.facilitator) ∨
            (out = { inp with facilitator := (draws j).newFac } ∧ out.room = inp.room ∧
              out.time = inp.time))) := by
  constructor
  · intro h
    show mutateItems 0 draws 0 schedule.items = schedule.items
    exact mutateItems_rate_zero draws h schedule.items 0
  · intro h j inp hj
    refine ⟨mutateItem 1 (draws j) inp, ?_, ?_⟩
    · show (mutateItems 1 draws 0 schedule.items).get? j = _
      rw [mutateItems_get 1 draws schedule.items 0 j, hj]
      simp
    · unfold mutateItem
      rw [if_pos (h j)]
      cases hm : (draws j).mtype with
      | room => exact ⟨rfl, Or.inl ⟨rfl, rfl, rfl⟩⟩
      | time => exact ⟨rfl, Or.inr (Or.inl ⟨rfl, rfl, rfl⟩)⟩
      | facilitator => exact ⟨rfl, Or.inr (Or.inr ⟨rfl, rfl, rfl⟩)⟩

/-- Witness for C5 on a one-item schedule with a constant draw stream
selecting the room field: rate 0 keeps the item, rate 1 replaces the room. -/
theorem mutate_rate_extremes_witness :
    (mutate ⟨[⟨"a", "r", "t", "f"⟩], none⟩ 0
        (fun _ => ⟨0, MutationType.room, "r2", "t2", "f2"⟩)).items
      = [ScheduleItem.mk "a" "r" "t" "f"] ∧
    (mutate ⟨[⟨"a", "r", "t", "f"⟩], none⟩ 1
        (fun _ => ⟨0, MutationType.room, "r2", "t2", "f2"⟩)).items.get? 0
      = some (ScheduleItem.mk "a" "r2" "t" "f") := by
  have h := mutate_rate_extremes ⟨[⟨"a", "r", "t", "f"⟩], none⟩
    (fun _ => ⟨0, MutationType.room, "r2", "t2", "f2"⟩)
  obtain ⟨out, h1, h2, h3⟩ := h.2 (fun _ => by norm_num) 0 ⟨"a", "r", "t", "f"⟩ rfl
  exact ⟨h.1 (fun _ => le_refl 0), by decide⟩

/-- Helper for C2: a time collected for the SLA100 group always has a
matching item, so the lookup of schedule.py line 144 cannot fail. -/
theorem mem_sla101_find (items : List ScheduleItem) (t : String)
    (h : t ∈ sla101Times items) : ∃ i, find101 items t = some i := by
  unfold sla101Times at h
  simp only [List.mem_map, List.mem_filter] at h
  obtain ⟨i, ⟨hi, hp⟩, ht⟩ := h
  have : (find101 items t).isSome := by
    unfold find101
    rw [List.find?_isSome]
    exact ⟨i, hi, by rw [hp, ht]; simp⟩
  exact Option.isSome_iff_exists.mp this

/-- Helper for C2: a time collected for the SLA191 group always has a
matching item, so the lookup of schedule.py line 145 cannot fail. -/
theorem mem_sla191_find (items : List ScheduleItem) (t : String)
    (h : t ∈ sla191Times items) : ∃ i, find191 items t = some i := by
  unfold sla191Times at h
  simp only [List.mem_map, List.mem_filter] at h
  obtain ⟨i, ⟨hi, hp⟩, ht⟩ := h
  have : (find191 items t).isSome := by
    unfold find191
    rw [List.find?_isSome]
    exact ⟨i, hi, by rw [hp, ht]; simp⟩
  exact Option.isSome_iff_exists.mp this

/-- Helper for C2: summing a constant list of zero contributions gives zero. -/
theorem sumOpt_map_zero : ∀ l : List String, sumOpt (l.map fun _ => some (0 : ℚ)) = some 0 := by
  intro l
  induction l with
  | nil => rfl
  | cons t rest ih =>
      simp only [List.map_cons, sumOpt, ih, Option.some_bind]
      norm_num

/-- C2: for every pair of one collected SLA100-group time and one
collected SLA191-group time, the cross-group contribution is +0.5 at slot
distance 1, plus an extra -0.4 exactly when one of the two matching items
is in a Roman or Beach room and the other is not; +0.25 at distance 2;
-0.25 at distance 0; 0 at any other distance.  A group with zero
collected times contributes nothing to the cross-group score. -/
theorem cross_group_contribution :
    (∀ (items : List ScheduleItem) (t101 t191 : String) (a b : Nat),
      t101 ∈ sla101Times items → t191 ∈ sla191Times items →
      slotIndex t101 = some a → slotIndex t191 = some b →
      ∃ i101 i191, find101 items t101 = some i101 ∧ find191 items t191 = some i191 ∧
        crossPairScore items t101 t191 = some (
          if ((a : Int) - b).natAbs = 1 then
            1/2 + (if isRomanBeach i101.room != isRomanBeach i191.room then -2/5 else 0)
          else if ((a : Int) - b).natAbs = 2 then 1/4
          else if ((a : Int) - b).natAbs = 0 then -1/4
          else 0)) ∧
    (∀ items, sla101Times items = [] → crossScore items = some 0) ∧
    (∀ items, sla191Times items = [] → crossScore items = some 0) := by
  refine ⟨?_, ?_, ?_⟩
  · intro items t101 t191 a b h101 h191 ha hb
    obtain ⟨i101, hf101⟩ := mem_sla101_find items t101 h101
    obtain ⟨i191, hf191⟩ := mem_sla191_find items t191 h191
    refine ⟨i101, i191, hf101, hf191, ?_⟩
    have hd : slotDist t101 t191 = some ((a : Int) - b).natAbs := by
      simp [slotDist, ha, hb]
    unfold crossPairScore
    rw [hd]
    simp only [Option.bind_eq_bind, Option.some_bind]
    split_ifs <;>
      first
        | rfl
        | (rw [hf101, hf191]; simp_all [Option.pure_def])
  · intro items h
    unfold crossScore
    rw [h]
    rfl
  · intro items h
    unfold crossScore
    simp only [h, List.map_nil]
    exact sumOpt_map_zero (sla101Times items)

/-- Witness for C2: SLA100A in a Roman room at 10 AM against SLA191A in a
non-Roman room at 11 AM, slot distance 1, scores 0.5 - 0.4 = 0.1. -/
theorem cross_group_contribution_witness :
    crossPairScore [⟨"SLA100A", "Roman 216", "10 AM", "F"⟩,
        ⟨"SLA191A", "R", "11 AM", "G"⟩] "10 AM" "11 AM" = some (1/10) := by
  obtain ⟨i101, i191, h1, h2, h3⟩ := cross_group_contribution.1
    [⟨"SLA100A", "Roman 216", "10 AM", "F"⟩, ⟨"SLA191A", "R", "11 AM", "G"⟩]
    "10 AM" "11 AM" 0 1 (by decide) (by decide) (by decide) (by decide)
  have e1 : ScheduleItem.mk "SLA100A" "Roman 216" "10 AM" "F" = i101 := Option.some.inj h1
  have e2 : ScheduleItem.mk "SLA191A" "R" "11 AM" "G" = i191 := Option.some.inj h2
  rw [h3, ← e1, ← e2]
  decide

/-- C8: Schedule.calculate_fitness is deterministic and pure: a
successful call leaves the item list unchanged and only writes the score
into the fitness_score cache, a second call on the resulting schedule
returns the identical score and state, and any schedule with the same
item list receives the same score from the same catalogs. -/
theorem calculate_fitness_pure (activities : ActivityCatalog) (rooms : RoomCatalog)
    (s : Schedule) (q : ℚ) (s2 : Schedule)
    (h : s.calculate_fitness activities rooms = some (q, s2)) :
    s2.items = s.items ∧ s2.fitness_score = some q ∧
    s2.calculate_fitness activities rooms = some (q, s2) ∧
    ∀ t : Schedule, t.items = s.items →
      t.calculate_fitness activities rooms = some (q, { t with fitness_score := some q }) := by
  unfold Schedule.calculate_fitness at h
  cases hf : fitnessValue activities rooms s.items with
  | none =>
      rw [hf] at h
      exact absurd h (by simp)
  | some q0 =>
      rw [hf] at h
      simp only [Option.some.injEq, Prod.mk.injEq] at h
      obtain ⟨hq, hs⟩ := h
      subst hq
      subst hs
      refine ⟨rfl, rfl, ?_, ?_⟩
      · unfold Schedule.calculate_fitness
        have hitems : ({ s with fitness_score := some q0 } : Schedule).items = s.items := rfl
        rw [hitems, hf]
      · intro t ht
        unfold Schedule.calculate_fitness
        rw [ht, hf]

/-- Witness for C8: scoring a concrete one-item schedule, then scoring
the returned schedule again, yields the same score and state. -/
theorem calculate_fitness_pure_witness :
    (Schedule.mk [⟨"X", "R", "10 AM", "F"⟩] (some (3/5))).calculate_fitness
        [("X", ⟨"X", 10, ["F"], []⟩)] [("R", ⟨"R", 20⟩)]
      = some (3/5, ⟨[⟨"X", "R", "10 AM", "F"⟩], some (3/5)⟩) :=
  (calculate_fitness_pure [("X", ⟨"X", 10, ["F"], []⟩)] [("R", ⟨"R", 20⟩)]
    ⟨[⟨"X", "R", "10 AM", "F"⟩], none⟩ (3/5) ⟨[⟨"X", "R", "10 AM", "F"⟩], some (3/5)⟩
    (by decide)).2.2.1

/-- C9: select_parents unconditionally reads the first two ranked
positions: on a population of fewer than two schedules it fails
(IndexError, modelled as none) instead of returning a value, and on a
population of at least two scored schedules it returns exactly the first
two entries of the stable descending sort by fitness_score, which
dominate the keys of the rest; the sort is a permutation of the input
and the input list itself is untouched. -/
theorem select_parents_spec (generation : List Schedule) :
    (generation.length < 2 → select_parents generation = none) ∧
    ((∀ s ∈ generation, s.fitness_score.isSome) → 2 ≤ generation.length →
      ∃ a b rest, sortByFitnessDesc generation = a :: b :: rest ∧
        select_parents generation = some (a, b) ∧
        generation.Perm (a :: b :: rest) ∧
        fitKey b ≤ fitKey a ∧
        (∀ s ∈ rest, fitKey s ≤ fitKey b)) := by
  have hlen : (sortByFitnessDesc generation).length = generation.length :=
    (List.perm_insertionSort fitDesc generation).length_eq
  constructor
  · intro hshort
    unfold select_parents
    split
    · cases hs : sortByFitnessDesc generation with
      | nil => rfl
      | cons a tl =>
          cases tl with
          | nil => rfl
          | cons b tl2 =>
              exfalso
              rw [hs] at hlen
              simp at hlen
              omega
    · rfl
  · intro hscored hlong
    have hsorted : List.Sorted fitDesc (sortByFitnessDesc generation) :=
      List.sorted_insertionSort fitDesc generation
    have hperm : (sortByFitnessDesc generation).Perm generation :=
      List.perm_insertionSort fitDesc generation
    cases hs : sortByFitnessDesc generation with
    | nil =>
        rw [hs] at hlen
        simp at hlen
        omega
    | cons a tl =>
        cases tl with
        | nil =>
            rw [hs] at hlen
            simp at hlen
            omega
        | cons b rest =>
            rw [hs] at hsorted hperm
            have hab : fitDesc a b := (List.pairwise_cons.mp hsorted).1 b (by simp)
            have hrest : ∀ s ∈ rest, fitDesc b s :=
              (List.pairwise_cons.mp (List.pairwise_cons.mp hsorted).2).1
            have hall : generation.all (fun s => s.fitness_score.isSome) = true := by
              rw [List.all_eq_true]
              exact hscored
            refine ⟨a, b, rest, rfl, ?_, hperm.symm, hab, fun s hsmem => hrest s hsmem⟩
            unfold select_parents
            rw [if_pos ?_]
            · rw [hs]
            · rw [hall]
  -- end of select_parents_spec

/-- Witness for C9: a singleton population fails, and a two-element
population returns the higher-scored schedule first. -/
theorem select_parents_spec_witness :
    select_parents [⟨[], some 1⟩] = none ∧
    select_parents [⟨[], some 1⟩, ⟨[], some 2⟩]
      = some (⟨[], some 2⟩, ⟨[], some 1⟩) := by
  constructor
  · exact (select_parents_spec [⟨[], some 1⟩]).1 (by decide)
  · obtain ⟨a, b, rest, hs, hsel, _⟩ :=
      (select_parents_spec [⟨[], some 1⟩, ⟨[], some 2⟩]).2 (by decide) (by decide)
    have heval : sortByFitnessDesc [⟨[], some 1⟩, ⟨[], some 2⟩]
        = [⟨[], some 2⟩, ⟨[], some 1⟩] := by decide
    rw [heval] at hs
    rw [hsel]
    rw [List.cons.injEq, List.cons.injEq] at hs
    rw [hs.1, hs.2.1]

/-- Helper for C10: the per-item pass fails as soon as any item of the
list has an activity or room name missing from the catalogs. -/
theorem scoreItems_lookup_none (activities : ActivityCatalog) (rooms : RoomCatalog)
    (all : List ScheduleItem) :
    ∀ (l : List ScheduleItem) (seen : List (String × String)) (item : ScheduleItem),
      item ∈ l →
      (activities.lookup item.activity = none ∨ rooms.lookup item.room = none) →
      scoreItems activities rooms all l seen = none := by
  intro l
  induction l with
  | nil =>
      intro seen item hmem
      exact absurd hmem (List.not_mem_nil item)
  | cons i rest ih =>
      intro seen item hmem hbad
      rcases List.mem_cons.mp hmem with rfl | hmem2
      · have hfail : scoreItemRest activities rooms all item = none := by
          unfold scoreItemRest
          rcases hbad with h | h
          · rw [h]
            rfl
          · cases ha : activities.lookup item.activity with
            | none => rfl
            | some a => simp [h]
        simp [scoreItems, hfail]
      · have hrest := ih (insertPair seen (timeRoomPair i)) item hmem2 hbad
        cases hsi : scoreItemRest activities rooms all i with
        | none => simp [scoreItems, hsi]
        | some v => simp [scoreItems, hsi, hrest]

/-- Helper for C10: the per-item pass succeeds whenever every item of the
list has both its activity and its room in the catalogs. -/
theorem scoreItems_lookup_some (activities : ActivityCatalog) (rooms : RoomCatalog)
    (all : List ScheduleItem) :
    ∀ (l : List ScheduleItem) (seen : List (String × String)),
      (∀ item ∈ l, (activities.lookup item.activity).isSome ∧
        (rooms.lookup item.room).isSome) →
      ∃ q, scoreItems activities rooms all l seen = some q := by
  intro l
  induction l with
  | nil => exact fun seen _ => ⟨0, rfl⟩
  | cons i rest ih =>
      intro seen h
      obtain ⟨ha, hr⟩ := h i (by simp)
      obtain ⟨a, ha2⟩ := Option.isSome_iff_exists.mp ha
      obtain ⟨r, hr2⟩ := Option.isSome_iff_exists.mp hr
      obtain ⟨q2, hq2⟩ := ih (insertPair seen (timeRoomPair i))
        (fun item hmem => h item (List.mem_cons_of_mem i hmem))
      have hsi : scoreItemRest activities rooms all i = some
          (roomSizeScore r a + facilitatorScore a i.facilitator
            + concurrencyScore (facilitatorTimeCount all i)
            + loadScore (facilitatorCount all i.facilitator) i.facilitator) := by
        unfold scoreItemRest
        rw [ha2]
        simp [hr2]
      refine ⟨collisionScore seen i
        + (roomSizeScore r a + facilitatorScore a i.facilitator
            + concurrencyScore (facilitatorTimeCount all i)
            + loadScore (facilitatorCount all i.facilitator) i.facilitator) + q2, ?_⟩
      simp [scoreItems, hsi, hq2]

/-- C10: Schedule.calculate_fitness is total only when every item's
activity and room names are catalog keys: any item with a missing key
makes the call fail with a key-lookup error (none) instead of returning
a score, whereas the four designated group activities being absent from
the schedule merely yields empty collected time lists, and the pairing
and cross-group checks are skipped without error, the call returning a
score. -/
theorem fitness_key_totality :
    (∀ (activities : ActivityCatalog) (rooms : RoomCatalog) (s : Schedule)
        (item : ScheduleItem),
      item ∈ s.items →
      (activities.lookup item.activity = none ∨ rooms.lookup item.room = none) →
      s.calculate_fitness activities rooms = none) ∧
    (∀ (activities : ActivityCatalog) (rooms : RoomCatalog) (s : Schedule),
      (∀ item ∈ s.items, (activities.lookup item.activity).isSome ∧
        (rooms.lookup item.room).isSome) →
      (∀ item ∈ s.items, item.activity ≠ "SLA100A" ∧ item.activity ≠ "SLA100B" ∧
        item.activity ≠ "SLA191A" ∧ item.activity ≠ "SLA191B") →
      sla101Times s.items = [] ∧ sla191Times s.items = [] ∧
      ∃ q s2, s.calculate_fitness activities rooms = some (q, s2)) := by
  constructor
  · intro activities rooms s item hmem hbad
    have hsi : scoreItems activities rooms s.items s.items [] = none :=
      scoreItems_lookup_none activities rooms s.items s.items [] item hmem hbad
    unfold Schedule.calculate_fitness
    rw [show fitnessValue activities rooms s.items = none by
      unfold fitnessValue
      rw [hsi]
      rfl]
  · intro activities rooms s hkeys hgroups
    have h101 : sla101Times s.items = [] := by
      unfold sla101Times
      rw [List.filter_eq_nil_iff.mpr]
      · rfl
      · intro i hi
        obtain ⟨h1, h2, _, _⟩ := hgroups i hi
        simp [h1, h2]
    have h191 : sla191Times s.items = [] := by
      unfold sla191Times
      rw [List.filter_eq_nil_iff.mpr]
      · rfl
      · intro i hi
        obtain ⟨_, _, h3, h4⟩ := hgroups i hi
        simp [h3, h4]
    obtain ⟨q, hq⟩ := scoreItems_lookup_some activities rooms s.items s.items [] hkeys
    have hfv : fitnessValue activities rooms s.items = some (q + 0 + 0 + 0) := by
      unfold fitnessValue
      rw [hq, h101, h191]
      rw [show crossScore s.items = some 0 by
        unfold crossScore
        rw [h101]
        rfl]
      rfl
    refine ⟨h101, h191, q + 0 + 0 + 0, { s with fitness_score := some (q + 0 + 0 + 0) }, ?_⟩
    unfold Schedule.calculate_fitness
    rw [hfv]

/-- Witness for C10: a schedule whose only item names an unknown room
fails, and a schedule of one ordinary activity with valid keys and no
group sections is scored without error. -/
theorem fitness_key_totality_witness :
    (Schedule.mk [⟨"X", "Bad", "10 AM", "F"⟩] none).calculate_fitness
        [("X", ⟨"X", 10, ["F"], []⟩)] [("R", ⟨"R", 20⟩)] = none ∧
    sla101Times [ScheduleItem.mk "X" "R" "10 AM" "F"] = [] := by
  constructor
  · exact (fitness_key_totality).1 [("X", ⟨"X", 10, ["F"], []⟩)] [("R", ⟨"R", 20⟩)]
      ⟨[⟨"X", "Bad", "10 AM", "F"⟩], none⟩ ⟨"X", "Bad", "10 AM", "F"⟩
      (by decide) (Or.inr (by decide))
  · exact ((fitness_key_totality).2 [("X", ⟨"X", 10, ["F"], []⟩)] [("R", ⟨"R", 20⟩)]
      ⟨[⟨"X", "R", "10 AM", "F"⟩], none⟩ (by decide) (by decide)).1

/-- Helper for C3: membership in the seen set after one insertion. -/
theorem mem_insertPair (seen : List (String × String)) (p x : String × String) :
    x ∈ insertPair seen p ↔ x = p ∨ x ∈ seen := by
  unfold insertPair
  split
  · constructor
    · exact fun h => Or.inr h
    · rintro (rfl | h)
      · assumption
      · exact h
  · exact List.mem_cons

/-- Helper for C3: membership in the seen set after a run of insertions. -/
theorem mem_foldl_insertPair (l : List (String × String)) :
    ∀ (seen : List (String × String)) (x : String × String),
      x ∈ l.foldl insertPair seen ↔ x ∈ seen ∨ x ∈ l := by
  induction l with
  | nil => intro seen x; simp
  | cons p rest ih =>
      intro seen x
      show x ∈ rest.foldl insertPair (insertPair seen p) ↔ _
      rw [ih (insertPair seen p) x, mem_insertPair]
      simp [List.mem_cons]
      tauto

/-- Helper for C3: the duplicate count splits over concatenation, with
the seen set advanced by the first half. -/
theorem dupCount_append (l1 : List (String × String)) :
    ∀ (l2 seen : List (String × String)),
      dupCount (l1 ++ l2) seen = dupCount l1 seen + dupCount l2 (l1.foldl insertPair seen) := by
  induction l1 with
  | nil => intro l2 seen; simp [dupCount]
  | cons p rest ih =>
      intro l2 seen
      show (if p ∈ seen then 1 else 0) + dupCount (rest ++ l2) (insertPair seen p) = _
      rw [ih l2 (insertPair seen p)]
      show _ = (if p ∈ seen then 1 else 0) + dupCount rest (insertPair seen p)
        + dupCount l2 (rest.foldl insertPair (insertPair seen p))
      omega

/-- Helper for C3: a duplicate-free list with no pair already seen incurs
no collision at all. -/
theorem dupCount_nodup_zero :
    ∀ (l seen : List (String × String)), l.Nodup → (∀ x ∈ l, x ∉ seen) →
      dupCount l seen = 0 := by
  intro l
  induction l with
  | nil => intro seen _ _; rfl
  | cons p rest ih =>
      intro seen hnd hdisj
      have hp : p ∉ seen := hdisj p (by simp)
      have hnd2 := List.nodup_cons.mp hnd
      show (if p ∈ seen then 1 else 0) + dupCount rest (insertPair seen p) = 0
      rw [if_neg hp, ih (insertPair seen p) hnd2.2]
      intro x hx
      rw [mem_insertPair]
      rintro (rfl | hmem)
      · exact hnd2.1 hx
      · exact hdisj x (List.mem_cons_of_mem p hx) hmem

/-- Helper for C3: a pair list in which exactly one pair occurs twice and
everything else is fresh incurs exactly one collision. -/
theorem dupCount_two_shared (A B C : List (String × String)) (p : String × String)
    (hN : (A ++ p :: (B ++ C)).Nodup) :
    dupCount (A ++ p :: (B ++ p :: C)) [] = 1 := by
  rw [List.nodup_append] at hN
  obtain ⟨hA, hRest, hdisjA⟩ := hN
  rw [List.nodup_cons] at hRest
  obtain ⟨hpBC, hBC⟩ := hRest
  rw [List.nodup_append] at hBC
  obtain ⟨hB, hC, hdisjBC⟩ := hBC
  have hpB : p ∉ B := fun h => hpBC (List.mem_append_left C h)
  have hpC : p ∉ C := fun h => hpBC (List.mem_append_right B h)
  have hpA : p ∉ A := fun h => hdisjA h (by simp)
  have hAB : ∀ x ∈ B, x ∉ A := fun x hx hax =>
    hdisjA hax (by simp [List.mem_append_left C hx])
  have hAC : ∀ x ∈ C, x ∉ A := fun x hx hax =>
    hdisjA hax (by simp [List.mem_append_right B hx])
  have hBCd : ∀ x ∈ C, x ∉ B := fun x hx hbx => hdisjBC hbx hx
  have hmemA : ∀ x, x ∈ A.foldl insertPair ([] : List (String × String)) ↔ x ∈ A := by
    intro x
    rw [mem_foldl_insertPair]
    simp
  rw [dupCount_append A (p :: (B ++ p :: C)) []]
  rw [dupCount_nodup_zero A [] hA (by simp)]
  simp only [dupCount]
  rw [if_neg (fun h => hpA ((hmemA p).mp h))]
  rw [dupCount_append B (p :: C) _]
  rw [dupCount_nodup_zero B _ hB ?hB2]
  case hB2 =>
    intro x hx
    rw [mem_insertPair]
    push_neg
    exact ⟨fun h => hpB (h ▸ hx), fun h => hAB x hx ((hmemA x).mp h)⟩
  simp only [dupCount]
  rw [if_pos ?hp2]
  case hp2 =>
    rw [mem_foldl_insertPair, mem_insertPair]
    exact Or.inl (Or.inl rfl)
  rw [dupCount_nodup_zero C _ hC ?hC2]
  case hC2 =>
    intro x hx
    rw [mem_insertPair, mem_foldl_insertPair, mem_insertPair]
    push_neg
    exact ⟨fun h => hpC (h ▸ hx), ⟨fun h => hpC (h ▸ hx), fun h => hAC x hx ((hmemA x).mp h)⟩,
      fun h => hBCd x hx h⟩

/-- Helper for C3: the per-item pass decomposes into the collision
penalty, -0.5 per duplicate encounter, plus the collision-free remainder. -/
theorem scoreItems_decompose (activities : ActivityCatalog) (rooms : RoomCatalog)
    (all : List ScheduleItem) :
    ∀ (l : List ScheduleItem) (seen : List (String × String)),
      scoreItems activities rooms all l seen = (restTotal activities rooms all l).map
        (fun r => (-(1 : ℚ)/2) * (dupCount (l.map timeRoomPair) seen : ℚ) + r) := by
  intro l
  induction l with
  | nil =>
      intro seen
      show some 0 = some ((-(1 : ℚ)/2) * ((0 : ℕ) : ℚ) + 0)
      norm_num
  | cons i rest ih =>
      intro seen
      cases hsi : scoreItemRest activities rooms all i with
      | none => simp [scoreItems, restTotal, hsi]
      | some s =>
          cases hrt : restTotal activities rooms all rest with
          | none => simp [scoreItems, restTotal, hsi, hrt, ih]
          | some r =>
              have hrec := ih (insertPair seen (timeRoomPair i))
              rw [hrt] at hrec
              simp only [Option.map_some'] at hrec
              simp only [scoreItems, restTotal, hsi, hrt, hrec, Option.bind_eq_bind,
                Option.some_bind, Option.map_some', Option.pure_def, List.map_cons, dupCount]
              rw [Option.some.injEq]
              unfold collisionScore
              split_ifs with h
              · push_cast
                ring
              · push_cast
                ring

/-- C3: the per-item pass maintains the set of (time, room) pairs seen so
far; an item whose pair is already in the set contributes -0.5, and the
pair is in the set afterwards regardless of duplication.  Consequently a
schedule in which exactly two items share a pair scores exactly 0.5 less
than the otherwise identical schedule in which the duplicate is moved to
a pair distinct from every other item's, all other per-item and group
contributions being equal. -/
theorem collision_penalty_differential :
    (∀ (activities : ActivityCatalog) (rooms : RoomCatalog)
        (all : List ScheduleItem) (item : ScheduleItem) (rest : List ScheduleItem)
        (seen : List (String × String)),
      scoreItems activities rooms all (item :: rest) seen = (do
        let s ← scoreItemRest activities rooms all item
        let r ← scoreItems activities rooms all rest (insertPair seen (timeRoomPair item))
        pure (collisionScore seen item + s + r)) ∧
      collisionScore seen item = (if timeRoomPair item ∈ seen then -1/2 else 0) ∧
      timeRoomPair item ∈ insertPair seen (timeRoomPair item)) ∧
    (∀ (activities : ActivityCatalog) (rooms : RoomCatalog) (s1 s2 : Schedule)
        (A B C : List (String × String)) (p : String × String) (q : ℚ),
      s1.items.map timeRoomPair = A ++ p :: (B ++ p :: C) →
      (A ++ p :: (B ++ C)).Nodup →
      (s2.items.map timeRoomPair).Nodup →
      restTotal activities rooms s1.items s1.items
        = restTotal activities rooms s2.items s2.items →
      groupScore (sla101Times s1.items) = groupScore (sla101Times s2.items) →
      groupScore (sla191Times s1.items) = groupScore (sla191Times s2.items) →
      crossScore s1.items = crossScore s2.items →
      fitnessValue activities rooms s2.items = some q →
      fitnessValue activities rooms s1.items = some (q - 1/2)) := by
  constructor
  · intro activities rooms all item rest seen
    refine ⟨rfl, rfl, ?_⟩
    rw [mem_insertPair]
    exact Or.inl rfl
  · intro activities rooms s1 s2 A B C p q hp1 hN hnd2 hrest hg101 hg191 hcross hq
    have hd1 : dupCount (s1.items.map timeRoomPair) [] = 1 := by
      rw [hp1]
      exact dupCount_two_shared A B C p hN
    have hd2 : dupCount (s2.items.map timeRoomPair) [] = 0 :=
      dupCount_nodup_zero (s2.items.map timeRoomPair) [] hnd2 (by simp)
    have hdec1 := scoreItems_decompose activities rooms s1.items s1.items []
    have hdec2 := scoreItems_decompose activities rooms s2.items s2.items []
    rw [hd1] at hdec1
    rw [hd2] at hdec2
    unfold fitnessValue at hq ⊢
    cases hrt2 : restTotal activities rooms s2.items s2.items with
    | none =>
        rw [hrt2] at hdec2
        simp only [Option.map_none'] at hdec2
        rw [hdec2] at hq
        simp at hq
    | some r =>
        rw [hrt2] at hdec2
        simp only [Option.map_some'] at hdec2
        have hrt1 : restTotal activities rooms s1.items s1.items = some r := by
          rw [hrest, hrt2]
        rw [hrt1] at hdec1
        simp only [Option.map_some'] at hdec1
        rw [hdec2] at hq
        rw [hdec1, hg101, hg191, hcross]
        cases hga : groupScore (sla101Times s2.items) with
        | none =>
            rw [hga] at hq
            simp at hq
        | some ga =>
            cases hgb : groupScore (sla191Times s2.items) with
            | none =>
                rw [hgb] at hq
                simp at hq
            | some gb =>
                cases hgc : crossScore s2.items with
                | none =>
                    rw [hgc] at hq
                    simp at hq
                | some gc =>
                    rw [hga, hgb, hgc] at hq
                    simp only [Option.bind_eq_bind, Option.some_bind, Option.pure_def,
                      Option.some.injEq] at hq ⊢
                    rw [← hq]
                    push_cast
                    ring

/-- Witness for C3: two items in the same room at the same time score
exactly 0.5 below the same schedule with the second item moved to a
fresh hour, all other contributions unchanged. -/
theorem collision_penalty_differential_witness :
    fitnessValue [("X", ⟨"X", 10, ["F"], []⟩), ("Y", ⟨"Y", 10, ["G"], []⟩)]
        [("R", ⟨"R", 20⟩)]
        [⟨"X", "R", "10 AM", "F"⟩, ⟨"Y", "R", "10 AM", "G"⟩] = some (6/5 - 1/2) :=
  collision_penalty_differential.2
    [("X", ⟨"X", 10, ["F"], []⟩), ("Y", ⟨"Y", 10, ["G"], []⟩)] [("R", ⟨"R", 20⟩)]
    ⟨[⟨"X", "R", "10 AM", "F"⟩, ⟨"Y", "R", "10 AM", "G"⟩], none⟩
    ⟨[⟨"X", "R", "10 AM", "F"⟩, ⟨"Y", "R", "11 AM", "G"⟩], none⟩
    [] [] [] ("10 AM", "R") (6/5)
    (by decide) (by decide) (by decide) (by decide) (by decide) (by decide) (by decide)
    (by decide)

end GA
